import Mathlib

/-!
Verification of the IP-reconciliation core of google-ddns-updater.

The Go sources embedded here are src/helper/helper.go and src/main.go.
The file system is modelled as a map from file path to optional content,
HTTP effects are abstracted: the external-IP probe result is an
`Option String` (trimmed body on success, `none` on failure) and the DNS
provider is an oracle from (hostname, requested ip) to its plaintext
response body.  Returned `error` values of the Go code become `Option`
values of explicit error types.
-/

/-- Models Go `strings.Split` with a one-character separator at the level
of character lists: the input is split at every occurrence of the
separator and empty fields are kept, so the result always has one more
element than the number of separator occurrences. -/
def splitOnCharList (c : Char) : List Char → List (List Char)
  | [] => [[]]
  | x :: xs =>
    if x = c then
      [] :: splitOnCharList c xs
    else
      match splitOnCharList c xs with
      | [] => [[x]]
      | y :: ys => (x :: y) :: ys

/-- Models `strings.Split(s, " ")` from helper.go line 210. -/
def goSplitSpace (s : String) : List String :=
  (splitOnCharList ' ' s.data).map List.asString

/-! ## Data model of helper.go -/

/-- `Config` struct of helper.go (one hostname with its credential). -/
structure Config where
  hostname : String
  username : String
  password : String
deriving DecidableEq

/-- `Configs` struct of helper.go: optional static ip plus the list of
per-hostname configurations. -/
structure Configs where
  ipAddress : String
  configs : List Config
deriving DecidableEq

/-- `fallbackIP` constant of helper.go line 58. -/
def fallbackIP : String := "0.0.0.0"

/-- `ipCacheFilename` constant of helper.go line 53. -/
def ipCacheFilename : String := "ip.cache"

/-- `ipCacheFilepath` of helper.go lines 133-135.  `filepath.Join` is
modelled as plain separator concatenation, which is what it computes for
a clean directory path and a hostname free of path separators. -/
def ipCacheFilepath (cacheDir hostname : String) : String :=
  (cacheDir ++ "/" ++ ipCacheFilename ++ ".") ++ hostname

/-- The file system: a map from path to optional content. -/
abbrev FS := String → Option String

/-- `os.WriteFile`: overwrite one path with new content. -/
def fsWrite (fs : FS) (path content : String) : FS :=
  fun p => if p = path then some content else fs p

/-- `cacheIP` of helper.go lines 162-168: write the ip to the per-host
cache file. -/
def cacheIP (conf : Config) (cacheDir : String) (fs : FS) (ip : String) : FS :=
  fsWrite fs (ipCacheFilepath cacheDir conf.hostname) ip

/-- Structured reasons of the `error` values built by `checkResponse`
(helper.go lines 205-246), one constructor per `fmt.Errorf` site. -/
inductive UpdateError where
  | mismatch (returned requested : String)
  | nohost (hostname : String)
  | badauth (username password hostname : String)
  | notfqdn (hostname : String)
  | badagent
  | abuse (hostname : String)
  | internalServerError
  | unhandled (response : String)
deriving DecidableEq

/-- `checkResponse` of helper.go lines 205-246.  `comps` is
`strings.Split(response, " ")`; with at least two components the ip is
cached on an echo match and a mismatch error is produced otherwise (the
`switch comps[0]` of lines 219-224 only logs); with fewer than two
components the response is matched against the fixed error vocabulary,
modelled by the same sequential comparisons the Go `switch` performs. -/
def checkResponse (conf : Config) (cacheDir : String) (fs : FS)
    (response ip : String) : FS × Option UpdateError :=
  if 2 ≤ (goSplitSpace response).length then
    if ip = (goSplitSpace response).getD 1 "" then
      (cacheIP conf cacheDir fs ip, none)
    else
      (fs, some (UpdateError.mismatch ((goSplitSpace response).getD 1 "") ip))
  else
    if response = "nohost" then
      (fs, some (UpdateError.nohost conf.hostname))
    else if response = "badauth" then
      (fs, some (UpdateError.badauth conf.username conf.password conf.hostname))
    else if response = "notfqdn" then
      (fs, some (UpdateError.notfqdn conf.hostname))
    else if response = "badagent" then
      (fs, some UpdateError.badagent)
    else if response = "abuse" then
      (fs, some (UpdateError.abuse conf.hostname))
    else if response = "911" then
      (fs, some UpdateError.internalServerError)
    else
      (fs, some (UpdateError.unhandled response))

/-- Errors that the `err` variable of `main` can hold during the
reconciliation loop. -/
inductive MainError where
  | loadErr (path : String)
  | updateErr (e : UpdateError)
  | probeErr
deriving DecidableEq

/-- `LoadCachedIP` of helper.go lines 138-159.  When the cache file does
not exist the fallback sentinel is first written (`cacheIP`, its error
discarded) and then returned with a nil error.  Otherwise the file is
read; `readFails` is the environment oracle for an `os.ReadFile` failure
on an existing file, in which case the Go function returns the empty
string together with the read error. -/
def LoadCachedIP (readFails : String → Bool) (conf : Config)
    (cacheDir : String) (fs : FS) : FS × String × Option MainError :=
  match fs (ipCacheFilepath cacheDir conf.hostname) with
  | none => (cacheIP conf cacheDir fs fallbackIP, fallbackIP, none)
  | some data =>
    if readFails (ipCacheFilepath cacheDir conf.hostname) then
      (fs, "", some (MainError.loadErr (ipCacheFilepath cacheDir conf.hostname)))
    else
      (fs, data, none)

/-- `ConfigForHostname` of helper.go lines 265-273: first configuration
whose hostname matches. -/
def ConfigForHostname (confs : Configs) (hostname : String) : Option Config :=
  confs.configs.find? (fun conf => conf.hostname == hostname)

/-! ## Model of the reconciliation loop of main.go -/

/-- The per-hostname outcome recorded for one pass of the loop body of
main.go lines 101-123.  `updated` and `updateFailed` are the two events
in which an HTTP update request is sent to the provider. -/
inductive Event where
  | skipped (hostname : String)
  | loadError (hostname : String) (e : MainError)
  | upToDate (hostname : String)
  | updated (hostname ip : String)
  | updateFailed (hostname ip : String) (e : UpdateError)
deriving DecidableEq

/-- Hostname an event belongs to. -/
def eventHost : Event → String
  | Event.skipped h => h
  | Event.loadError h _ => h
  | Event.upToDate h => h
  | Event.updated h _ => h
  | Event.updateFailed h _ _ => h

/-- What one event does to the `err` variable of `main`: `none` when the
loop body leaves `err` untouched (hostname not in the configs), otherwise
the value the body stores into `err`. -/
def eventStatus : Event → Option (Option MainError)
  | Event.skipped _ => none
  | Event.loadError _ e => some (some e)
  | Event.upToDate _ => some none
  | Event.updated _ _ => some none
  | Event.updateFailed _ _ e => some (some (MainError.updateErr e))

/-- Update requests actually sent to the provider, with their target ip,
in order. -/
def updateCallsOf (es : List Event) : List (String × String) :=
  es.filterMap fun e =>
    match e with
    | Event.updated h i => some (h, i)
    | Event.updateFailed h i _ => some (h, i)
    | _ => none

/-- Errors encountered during a run, in order. -/
def errorsOf (es : List Event) : List MainError :=
  (es.filterMap eventStatus).filterMap id

/-- State carried through the loop of main.go: the file system, the
shared `err` variable, and the trace of per-hostname events. -/
structure RunState where
  fs : FS
  err : Option MainError
  trace : List Event

/-- Static collaborators of one run: the configuration set, the cache
directory, the provider oracle (hostname and requested ip to response
body) and the read-failure oracle. -/
structure Env where
  confs : Configs
  cacheDir : String
  provider : String → String → String
  readFails : String → Bool

/-- One iteration of the loop of main.go lines 101-123: look the hostname
up (`continue` when absent), load the cached ip into the shared `err`
variable, skip when already up to date, otherwise send the update and
keep its error if there is one (a successful load already reset `err`). -/
def processHost (env : Env) (ipAddr : String) (st : RunState)
    (hostname : String) : RunState :=
  match ConfigForHostname env.confs hostname with
  | none => { st with trace := st.trace ++ [Event.skipped hostname] }
  | some conf =>
    match LoadCachedIP env.readFails conf env.cacheDir st.fs with
    | (fs1, savedIP, none) =>
      if ipAddr = savedIP then
        { fs := fs1, err := none,
          trace := st.trace ++ [Event.upToDate conf.hostname] }
      else
        match checkResponse conf env.cacheDir fs1
            (env.provider conf.hostname ipAddr) ipAddr with
        | (fs2, none) =>
          { fs := fs2, err := none,
            trace := st.trace ++ [Event.updated conf.hostname ipAddr] }
        | (fs2, some e) =>
          { fs := fs2, err := some (MainError.updateErr e),
            trace := st.trace ++ [Event.updateFailed conf.hostname ipAddr e] }
    | (fs1, _, some e) =>
      { fs := fs1, err := some e,
        trace := st.trace ++ [Event.loadError conf.hostname e] }

/-- The whole hostname loop of main.go lines 101-123. -/
def runHosts (env : Env) (ipAddr : String) (st : RunState)
    (hostnames : List String) : RunState :=
  hostnames.foldl (processHost env ipAddr) st

/-- IP resolution of main.go lines 86-95: explicit `-i` value, then the
static ip of the configs, then the external probe.  `GetExternalIP`
(helper.go lines 96-130) returns the trimmed body on success and the
pair `(fallbackIP, err)` on failure, modelled by `probe = none`. -/
def resolveIP (ipFlag : String) (confs : Configs) (probe : Option String) :
    String × Option MainError :=
  let ip1 := if ipFlag = "" then confs.ipAddress else ipFlag
  if ip1 = "" then
    match probe with
    | some ip => (ip, none)
    | none => (fallbackIP, some MainError.probeErr)
  else
    (ip1, none)

/-- main.go lines 86-131 after configuration loading: resolve the ip,
skip the loop only when the resolved ip is the empty string, and return
the final state whose `err` field is what `main` checks at line 127. -/
def runMain (env : Env) (ipFlag : String) (probe : Option String)
    (fs0 : FS) (hostnames : List String) : RunState :=
  match resolveIP ipFlag env.confs probe with
  | (ipAddr, perr) =>
    if ipAddr = "" then
      { fs := fs0, err := perr, trace := [] }
    else
      runHosts env ipAddr { fs := fs0, err := perr, trace := [] } hostnames

/-- Last element of a list, or the default when the list is empty. -/
def lastOrD {α : Type} (l : List α) (d : α) : α :=
  l.foldl (fun _ s => s) d

/-- Per-hostname error statuses of a trace, in order: one entry for every
hostname found in the configuration set. -/
def statusList (es : List Event) : List (Option MainError) :=
  es.filterMap eventStatus

/-! ## Helper lemmas about splitting -/

/-- `strings.Split` never returns an empty slice. -/
theorem splitOnCharList_ne_nil (c : Char) (l : List Char) :
    splitOnCharList c l ≠ [] := by
  cases l with
  | nil => simp [splitOnCharList]
  | cons x xs =>
    simp only [splitOnCharList]
    by_cases hx : x = c
    · simp [hx]
    · simp only [hx, if_false]
      cases splitOnCharList c xs <;> simp

/-- If the separator does not occur in the list, the split is the whole
list as a single field. -/
theorem splitOnCharList_of_not_mem (c : Char) (l : List Char) (h : c ∉ l) :
    splitOnCharList c l = [l] := by
  induction l with
  | nil => rfl
  | cons x xs ih =>
    have hx : ¬ x = c := fun hc => h (hc ▸ List.mem_cons_self x xs)
    have hxs : c ∉ xs := fun hc => h (List.mem_cons_of_mem x hc)
    simp only [splitOnCharList, hx, if_false, ih hxs]

/-- Rebuilding a string from its character data is the identity. -/
theorem asString_data (s : String) : s.data.asString = s := rfl

/-- A string without a space splits into itself as the unique token. -/
theorem goSplitSpace_of_no_space (s : String) (h : ' ' ∉ s.data) :
    goSplitSpace s = [s] := by
  simp [goSplitSpace, splitOnCharList_of_not_mem ' ' s.data h, asString_data]

@[simp] theorem lastOrD_nil {α : Type} (d : α) : lastOrD ([] : List α) d = d := rfl

@[simp] theorem lastOrD_cons {α : Type} (a : α) (l : List α) (d : α) :
    lastOrD (a :: l) d = lastOrD l a := rfl

@[simp] theorem runHosts_nil (env : Env) (ip : String) (st : RunState) :
    runHosts env ip st [] = st := rfl

@[simp] theorem runHosts_cons (env : Env) (ip : String) (st : RunState)
    (g : String) (t : List String) :
    runHosts env ip st (g :: t) = runHosts env ip (processHost env ip st g) t := rfl

/-! ## Helper lemmas -/

/-- For one cache directory, distinct hostnames give distinct cache file
paths. -/
theorem ipCacheFilepath_inj (d h1 h2 : String)
    (h : ipCacheFilepath d h1 = ipCacheFilepath d h2) : h1 = h2 := by
  have hd := congrArg String.data h
  rw [ipCacheFilepath, ipCacheFilepath, String.data_append, String.data_append] at hd
  exact String.ext (List.append_cancel_left hd)

/-- A write at one path leaves every other path unchanged. -/
theorem fsWrite_other (fs : FS) (path content p : String) (h : p ≠ path) :
    fsWrite fs path content p = fs p := by
  simp [fsWrite, h]

/-- A write preserves an equal value already present at any path. -/
theorem fsWrite_preserves (fs : FS) (path content p : String)
    (h : fs p = some content) : fsWrite fs path content p = some content := by
  by_cases hp : p = path <;> simp [fsWrite, hp, h]

/-- When the response has at least two components and the second echoes
the requested ip, `checkResponse` caches the ip and reports no error. -/
theorem checkResponse_success (conf : Config) (d : String) (fs : FS)
    (response ip : String)
    (hlen : 2 ≤ (goSplitSpace response).length)
    (hecho : (goSplitSpace response).getD 1 "" = ip) :
    checkResponse conf d fs response ip = (cacheIP conf d fs ip, none) := by
  have hecho' : (goSplitSpace response)[1]?.getD "" = ip := by
    simpa [List.getD] using hecho
  simp [checkResponse, hlen, hecho']

/-- The file system returned by `checkResponse` is either the input with
the requested ip cached, or the unchanged input. -/
theorem checkResponse_fst_cases (conf : Config) (d : String) (fs : FS)
    (response ip : String) :
    (checkResponse conf d fs response ip).1 = cacheIP conf d fs ip ∨
    (checkResponse conf d fs response ip).1 = fs := by
  unfold checkResponse
  split_ifs <;> simp

/-- `checkResponse` reports no error exactly when the response has at
least two components and the second echoes the requested ip. -/
theorem checkResponse_none_iff (conf : Config) (d : String) (fs : FS)
    (response ip : String) :
    (checkResponse conf d fs response ip).2 = none ↔
      (2 ≤ (goSplitSpace response).length ∧
       (goSplitSpace response).getD 1 "" = ip) := by
  unfold checkResponse
  split_ifs with h1 h2 <;> simp_all
  exact fun h => (h2 h.symm).elim

/-- On a reported error the file system is unchanged. -/
theorem checkResponse_some_fst (conf : Config) (d : String) (fs : FS)
    (response ip : String) (e : UpdateError)
    (h : (checkResponse conf d fs response ip).2 = some e) :
    (checkResponse conf d fs response ip).1 = fs := by
  unfold checkResponse at h ⊢
  split_ifs at h ⊢ <;> simp_all

/-! ## Claims about the response parser (checkResponse) -/

/-- C1, counterexample.  The response "zzz 1.2.3.4" has exactly the two
tokens "zzz" and "1.2.3.4", its status token is neither "good" nor
"nochg", and yet for requested ip "1.2.3.4" the outcome carries no error
(a success) and the cache save is triggered: the cache entry of the
hostname goes from absent to the requested ip. -/
theorem c1_counterexample :
    goSplitSpace "zzz 1.2.3.4" = ["zzz", "1.2.3.4"] ∧
    "zzz" ≠ "good" ∧ "zzz" ≠ "nochg" ∧
    (checkResponse ⟨"h", "u", "p"⟩ "d" (fun _ => none) "zzz 1.2.3.4" "1.2.3.4").2 = none ∧
    (checkResponse ⟨"h", "u", "p"⟩ "d" (fun _ => none) "zzz 1.2.3.4" "1.2.3.4").1
      (ipCacheFilepath "d" "h") = some "1.2.3.4" ∧
    (fun _ => none : FS) (ipCacheFilepath "d" "h") = none :=
  ⟨by decide, by decide, by decide, rfl, rfl, rfl⟩

/-- C1, amended.  For every response splitting into exactly two
space-separated tokens whose second token equals the requested ip, the
update outcome is a success and the cache save is triggered, whatever
the status token is: in `checkResponse` the status token only selects a
log message and never influences the outcome. -/
theorem c1_theorem (conf : Config) (d : String) (fs : FS)
    (response st0 ip : String)
    (hsplit : goSplitSpace response = [st0, ip]) :
    checkResponse conf d fs response ip = (cacheIP conf d fs ip, none) := by
  apply checkResponse_success <;> simp [hsplit]

/-- C1, witness: instantiation of the amended claim at the response
"good 1.2.3.4" for requested ip "1.2.3.4". -/
theorem c1_witness :
    checkResponse ⟨"h", "u", "p"⟩ "d" (fun _ => none) "good 1.2.3.4" "1.2.3.4" =
      (cacheIP ⟨"h", "u", "p"⟩ "d" (fun _ => none) "1.2.3.4", none) :=
  c1_theorem ⟨"h", "u", "p"⟩ "d" (fun _ => none) "good 1.2.3.4" "good" "1.2.3.4"
    (by decide)

/-- C2, counterexample.  The response "whatever 7.7.7.7" mutates the
cache entry of the hostname although its status token is neither "good"
(Applied) nor "nochg" (NoChange): mutation is not restricted to the two
success statuses named by the claim. -/
theorem c2_counterexample :
    (goSplitSpace "whatever 7.7.7.7").getD 0 "" ≠ "good" ∧
    (goSplitSpace "whatever 7.7.7.7").getD 0 "" ≠ "nochg" ∧
    (checkResponse ⟨"b", "u", "p"⟩ "d" (fun _ => none) "whatever 7.7.7.7" "7.7.7.7").1
        (ipCacheFilepath "d" "b") ≠
      (fun _ => none : FS) (ipCacheFilepath "d" "b") :=
  ⟨by decide, by decide, by decide⟩

/-- C2, amended.  The cache entry of the hostname is mutated by an update
attempt exactly when the outcome is a success, in which case it becomes
the requested ip; and the outcome is a success exactly when the response
has at least two space-separated components whose second equals the
requested ip, regardless of the status token. -/
theorem c2_theorem (conf : Config) (d : String) (fs : FS) (response ip : String) :
    ((checkResponse conf d fs response ip).1 (ipCacheFilepath d conf.hostname) =
      if (checkResponse conf d fs response ip).2 = none then some ip
      else fs (ipCacheFilepath d conf.hostname)) ∧
    ((checkResponse conf d fs response ip).2 = none ↔
      2 ≤ (goSplitSpace response).length ∧
      (goSplitSpace response).getD 1 "" = ip) := by
  refine ⟨?_, checkResponse_none_iff conf d fs response ip⟩
  rcases h : (checkResponse conf d fs response ip).2 with _ | e
  · have h1 := (checkResponse_none_iff conf d fs response ip).1 h
    rw [checkResponse_success conf d fs response ip h1.1 h1.2]
    simp [cacheIP, fsWrite]
  · rw [checkResponse_some_fst conf d fs response ip e h]
    simp [h]

/-- C3.  A response with exactly two space-separated tokens whose second
token differs from the requested ip yields the mismatch error and leaves
the whole file system, in particular the cached ip of the hostname,
unchanged, whatever the status token is. -/
theorem c3_theorem (conf : Config) (d : String) (fs : FS)
    (response st0 ret ip : String)
    (hsplit : goSplitSpace response = [st0, ret]) (hne : ret ≠ ip) :
    checkResponse conf d fs response ip = (fs, some (UpdateError.mismatch ret ip)) := by
  have hlen : 2 ≤ (goSplitSpace response).length := by simp [hsplit]
  have hget : (goSplitSpace response)[1]?.getD "" = ret := by simp [hsplit]
  simp [checkResponse, hlen, hget, Ne.symm hne]

/-- C3, witness: the response "good 5.6.7.8" answered to a request for ip
"1.2.3.4" yields the mismatch failure and does not mutate the cache. -/
theorem c3_witness :
    checkResponse ⟨"h", "u", "p"⟩ "d" (fun _ => none) "good 5.6.7.8" "1.2.3.4" =
      ((fun _ => none : FS), some (UpdateError.mismatch "5.6.7.8" "1.2.3.4")) :=
  c3_theorem ⟨"h", "u", "p"⟩ "d" (fun _ => none) "good 5.6.7.8" "good" "5.6.7.8"
    "1.2.3.4" (by decide) (by decide)

/-- C6.  A response containing no space is never a success: the file
system is returned unchanged together with an error that maps each of
the six known tokens to its specific reason and any other response to
the unrecognized-response reason carrying the raw response text. -/
theorem c6_theorem (conf : Config) (d : String) (fs : FS) (response ip : String)
    (h : ' ' ∉ response.data) :
    checkResponse conf d fs response ip =
      (fs, some (
        if response = "nohost" then UpdateError.nohost conf.hostname
        else if response = "badauth" then
          UpdateError.badauth conf.username conf.password conf.hostname
        else if response = "notfqdn" then UpdateError.notfqdn conf.hostname
        else if response = "badagent" then UpdateError.badagent
        else if response = "abuse" then UpdateError.abuse conf.hostname
        else if response = "911" then UpdateError.internalServerError
        else UpdateError.unhandled response)) := by
  have hsplit := goSplitSpace_of_no_space response h
  have hlen : ¬ 2 ≤ (goSplitSpace response).length := by simp [hsplit]
  simp only [checkResponse, hlen, if_false]
  split_ifs <;> rfl

/-- C6, witness: the response "badauth" yields the credential-rejected
reason and leaves the cache untouched. -/
theorem c6_witness :
    (' ' ∉ ("badauth" : String).data) ∧
    checkResponse ⟨"h", "u", "p"⟩ "d" (fun _ => none) "badauth" "1.2.3.4" =
      ((fun _ => none : FS), some (UpdateError.badauth "u" "p" "h")) := by
  refine ⟨by decide, ?_⟩
  have hx := c6_theorem ⟨"h", "u", "p"⟩ "d" (fun _ => none) "badauth" "1.2.3.4"
    (by decide)
  exact hx.trans (Prod.ext rfl (by decide))

/-! ## Claims about the cache store -/

/-- `updateCallsOf` distributes over trace concatenation. -/
theorem updateCallsOf_append (a b : List Event) :
    updateCallsOf (a ++ b) = updateCallsOf a ++ updateCallsOf b := by
  simp [updateCallsOf, List.filterMap_append]

/-- C7.  For a hostname with no cache record, `LoadCachedIP` first writes
the fallback sentinel as the cache value of that hostname and then
returns the sentinel with no error; consequently the first pass of the
loop for such a hostname sends an update request whenever the resolved
ip differs from the sentinel. -/
theorem c7_theorem :
    (∀ (rf : String → Bool) (conf : Config) (d : String) (fs : FS),
      fs (ipCacheFilepath d conf.hostname) = none →
      LoadCachedIP rf conf d fs = (cacheIP conf d fs fallbackIP, fallbackIP, none) ∧
      (cacheIP conf d fs fallbackIP) (ipCacheFilepath d conf.hostname) =
        some fallbackIP) ∧
    (∀ (env : Env) (ip : String) (st : RunState) (hostname : String) (conf : Config),
      ConfigForHostname env.confs hostname = some conf →
      st.fs (ipCacheFilepath env.cacheDir conf.hostname) = none →
      ip ≠ fallbackIP →
      updateCallsOf (processHost env ip st hostname).trace =
        updateCallsOf st.trace ++ [(conf.hostname, ip)]) := by
  constructor
  · intro rf conf d fs h
    refine ⟨?_, ?_⟩
    · simp [LoadCachedIP, h]
    · simp [cacheIP, fsWrite]
  · intro env ip st hostname conf hfind hfs hip
    have hload : LoadCachedIP env.readFails conf env.cacheDir st.fs =
        (cacheIP conf env.cacheDir st.fs fallbackIP, fallbackIP, none) := by
      simp [LoadCachedIP, hfs]
    rcases hcr : checkResponse conf env.cacheDir
        (cacheIP conf env.cacheDir st.fs fallbackIP)
        (env.provider conf.hostname ip) ip with ⟨fs2, oerr⟩
    cases oerr <;>
      simp [processHost, hfind, hload, hip, hcr, updateCallsOf_append, updateCallsOf]

/-- C7, witness: an empty file system, one configured hostname and a
resolved ip different from the sentinel. -/
theorem c7_witness :
    (LoadCachedIP (fun _ => false) ⟨"n", "u", "p"⟩ "d" (fun _ => none) =
      (cacheIP ⟨"n", "u", "p"⟩ "d" (fun _ => none) fallbackIP, fallbackIP, none)) ∧
    updateCallsOf (processHost
        ⟨⟨"", [⟨"n", "u", "p"⟩]⟩, "d", fun _ _ => "good 8.8.8.8", fun _ => false⟩
        "8.8.8.8" ⟨fun _ => none, none, []⟩ "n").trace = [("n", "8.8.8.8")] := by
  refine ⟨(c7_theorem.1 (fun _ => false) ⟨"n", "u", "p"⟩ "d" (fun _ => none) rfl).1, ?_⟩
  have hx := c7_theorem.2
    ⟨⟨"", [⟨"n", "u", "p"⟩]⟩, "d", fun _ _ => "good 8.8.8.8", fun _ => false⟩
    "8.8.8.8" ⟨fun _ => none, none, []⟩ "n" ⟨"n", "u", "p"⟩ rfl rfl (by decide)
  simpa using hx

/-- C9.  After an update attempt answered with "good" or "nochg" and an
echoed ip equal to the requested one, the outcome carries no error and a
subsequent load for that hostname returns exactly the requested ip. -/
theorem c9_theorem (conf : Config) (d : String) (fs : FS) (rf : String → Bool)
    (response st0 ip : String)
    (hsplit : goSplitSpace response = [st0, ip])
    (_hst : st0 = "good" ∨ st0 = "nochg")
    (hrf : rf (ipCacheFilepath d conf.hostname) = false) :
    (checkResponse conf d fs response ip).2 = none ∧
    LoadCachedIP rf conf d (checkResponse conf d fs response ip).1 =
      ((checkResponse conf d fs response ip).1, ip, none) := by
  have hcr : checkResponse conf d fs response ip = (cacheIP conf d fs ip, none) := by
    apply checkResponse_success <;> simp [hsplit]
  rw [hcr]
  refine ⟨rfl, ?_⟩
  simp [LoadCachedIP, cacheIP, fsWrite, hrf]

/-- C9, witness: a "good" response echoing the requested ip, then a
load. -/
theorem c9_witness :
    (checkResponse ⟨"r", "u", "p"⟩ "d" (fun _ => none) "good 4.4.4.4" "4.4.4.4").2
      = none ∧
    LoadCachedIP (fun _ => false) ⟨"r", "u", "p"⟩ "d"
        (checkResponse ⟨"r", "u", "p"⟩ "d" (fun _ => none) "good 4.4.4.4" "4.4.4.4").1 =
      ((checkResponse ⟨"r", "u", "p"⟩ "d" (fun _ => none) "good 4.4.4.4" "4.4.4.4").1,
        "4.4.4.4", none) :=
  c9_theorem ⟨"r", "u", "p"⟩ "d" (fun _ => none) (fun _ => false) "good 4.4.4.4"
    "good" "4.4.4.4" (by decide) (Or.inl rfl) rfl

/-- C10.  For distinct hostnames free of path separators, both kinds of
cache writes for one hostname, the save of a confirmed ip and the
create-on-read sentinel write of a load, leave the cache entry of the
other hostname unchanged: each hostname owns its own cache file. -/
theorem c10_theorem (conf : Config) (d h2 v : String) (fs : FS)
    (rf : String → Bool) (hne : conf.hostname ≠ h2)
    (_hsep1 : ('/' : Char) ∉ conf.hostname.data)
    (_hsep2 : ('/' : Char) ∉ h2.data) :
    cacheIP conf d fs v (ipCacheFilepath d h2) = fs (ipCacheFilepath d h2) ∧
    (LoadCachedIP rf conf d fs).1 (ipCacheFilepath d h2) =
      fs (ipCacheFilepath d h2) := by
  have hpath : ipCacheFilepath d h2 ≠ ipCacheFilepath d conf.hostname :=
    fun h => hne (ipCacheFilepath_inj d h2 conf.hostname h).symm
  have hcache : ∀ w, cacheIP conf d fs w (ipCacheFilepath d h2) =
      fs (ipCacheFilepath d h2) := fun w => by
    simp [cacheIP, fsWrite, hpath]
  refine ⟨hcache v, ?_⟩
  unfold LoadCachedIP
  cases hx : fs (ipCacheFilepath d conf.hostname) with
  | none => simpa using hcache fallbackIP
  | some data =>
    by_cases hr : rf (ipCacheFilepath d conf.hostname) <;> simp [hr]

/-- C10, witness: two distinct separator-free hostnames, a save for the
first and a load for the first, observed at the cache entry of the
second. -/
theorem c10_witness :
    cacheIP ⟨"x1", "u", "p"⟩ "d" (fun _ => none) "3.3.3.3" (ipCacheFilepath "d" "x2") =
      (fun _ => none : FS) (ipCacheFilepath "d" "x2") ∧
    (LoadCachedIP (fun _ => false) ⟨"x1", "u", "p"⟩ "d" (fun _ => none)).1
        (ipCacheFilepath "d" "x2") =
      (fun _ => none : FS) (ipCacheFilepath "d" "x2") :=
  c10_theorem ⟨"x1", "u", "p"⟩ "d" "x2" "3.3.3.3" (fun _ => none) (fun _ => false)
    (by decide) (by decide) (by decide)

/-! ## Structure of the reconciliation loop -/

/-- A configuration found for a hostname carries that hostname. -/
theorem ConfigForHostname_hostname (confs : Configs) (hostname : String)
    (conf : Config) (h : ConfigForHostname confs hostname = some conf) :
    conf.hostname = hostname := by
  unfold ConfigForHostname at h
  have hp := List.find?_some h
  exact eq_of_beq hp

/-- One loop iteration appends exactly one event, belonging to the
processed hostname, and sets the `err` variable to the status of that
event (keeping the previous value when the hostname is skipped). -/
theorem processHost_spec (env : Env) (ipAddr : String) (st : RunState)
    (hostname : String) :
    ∃ e : Event, (processHost env ipAddr st hostname).trace = st.trace ++ [e] ∧
      eventHost e = hostname ∧
      (processHost env ipAddr st hostname).err = (eventStatus e).getD st.err := by
  cases hfind : ConfigForHostname env.confs hostname with
  | none =>
    exact ⟨Event.skipped hostname, by simp [processHost, hfind], rfl,
      by simp [processHost, hfind, eventStatus]⟩
  | some conf =>
    have hh : conf.hostname = hostname := ConfigForHostname_hostname _ _ _ hfind
    rcases hload : LoadCachedIP env.readFails conf env.cacheDir st.fs with
      ⟨fs1, savedIP, oerr⟩
    cases oerr with
    | some e0 =>
      exact ⟨Event.loadError conf.hostname e0,
        by simp [processHost, hfind, hload], by simp [eventHost, hh],
        by simp [processHost, hfind, hload, eventStatus]⟩
    | none =>
      by_cases hip : ipAddr = savedIP
      · exact ⟨Event.upToDate conf.hostname,
          by simp [processHost, hfind, hload, hip], by simp [eventHost, hh],
          by simp [processHost, hfind, hload, hip, eventStatus]⟩
      · rcases hcr : checkResponse conf env.cacheDir fs1
            (env.provider conf.hostname ipAddr) ipAddr with ⟨fs2, uerr⟩
        cases uerr with
        | none =>
          exact ⟨Event.updated conf.hostname ipAddr,
            by simp [processHost, hfind, hload, hip, hcr],
            by simp [eventHost, hh],
            by simp [processHost, hfind, hload, hip, hcr, eventStatus]⟩
        | some ue =>
          exact ⟨Event.updateFailed conf.hostname ipAddr ue,
            by simp [processHost, hfind, hload, hip, hcr],
            by simp [eventHost, hh],
            by simp [processHost, hfind, hload, hip, hcr, eventStatus]⟩

/-- The loop produces one event per requested hostname, in the given
order, and ends with `err` equal to the status of the last event that
set it, starting from the incoming error. -/
theorem runHosts_spec (env : Env) (ipAddr : String) (hs : List String) :
    ∀ st : RunState, ∃ E : List Event,
      (runHosts env ipAddr st hs).trace = st.trace ++ E ∧
      E.map eventHost = hs ∧
      (runHosts env ipAddr st hs).err = lastOrD (statusList E) st.err := by
  induction hs with
  | nil => exact fun st => ⟨[], by simp, rfl, rfl⟩
  | cons g t ih =>
    intro st
    obtain ⟨e, he1, he2, he3⟩ := processHost_spec env ipAddr st g
    obtain ⟨E, hE1, hE2, hE3⟩ := ih (processHost env ipAddr st g)
    refine ⟨e :: E, ?_, ?_, ?_⟩
    · rw [runHosts_cons, hE1, he1, List.append_assoc, List.singleton_append]
    · simp [he2, hE2]
    · rw [runHosts_cons, hE3, he3]
      cases heS : eventStatus e <;> simp [statusList, List.filterMap_cons, heS]

/-! ## Claims about the batch (main.go) -/

/-- C5, counterexample.  With two configured hostnames, where the first
needs an update that the provider rejects with "badauth" and the second
is already up to date, the batch encounters exactly one error (the
badauth rejection, which is also the last error encountered) and yet
surfaces no error at the end: the successful cache load of the second
hostname overwrote the shared error variable. -/
theorem c5_counterexample :
    ((runMain ⟨⟨"", [⟨"h1", "u", "p"⟩, ⟨"h2", "u", "p"⟩]⟩, "d",
        fun _ _ => "badauth", fun _ => false⟩
      "9.9.9.9" none
      (fun p => if p = ipCacheFilepath "d" "h1" then some "1.1.1.1"
        else if p = ipCacheFilepath "d" "h2" then some "9.9.9.9" else none)
      ["h1", "h2"]).err = none) ∧
    errorsOf (runMain ⟨⟨"", [⟨"h1", "u", "p"⟩, ⟨"h2", "u", "p"⟩]⟩, "d",
        fun _ _ => "badauth", fun _ => false⟩
      "9.9.9.9" none
      (fun p => if p = ipCacheFilepath "d" "h1" then some "1.1.1.1"
        else if p = ipCacheFilepath "d" "h2" then some "9.9.9.9" else none)
      ["h1", "h2"]).trace =
      [MainError.updateErr (UpdateError.badauth "u" "p" "h1")] :=
  ⟨by decide, by decide⟩

/-- C5, amended.  The loop processes every requested hostname in the
given order, one event each, so no per-hostname failure aborts the
batch; but the error surfaced at the end is the error status of the last
hostname found in the configuration set (a later successfully loaded
hostname resets it), the incoming error surviving only when no
configured hostname is processed - not the last error encountered. -/
theorem c5_theorem (env : Env) (ipAddr : String) (st : RunState)
    (hs : List String) :
    (((runHosts env ipAddr st hs).trace.drop st.trace.length).map eventHost = hs) ∧
    (runHosts env ipAddr st hs).err =
      lastOrD (statusList ((runHosts env ipAddr st hs).trace.drop st.trace.length))
        st.err := by
  obtain ⟨E, h1, h2, h3⟩ := runHosts_spec env ipAddr hs st
  have hD : (runHosts env ipAddr st hs).trace.drop st.trace.length = E := by
    rw [h1]; exact List.drop_left st.trace E
  rw [hD]
  exact ⟨h2, h3⟩

/-- C4.  When no explicit ip and no configured static ip are given and
the external-IP probe fails, `GetExternalIP` returns the fallback
sentinel together with the error, the sentinel is not the empty string,
so the batch is NOT skipped: for a hostname whose cached ip differs from
the sentinel an update request carrying "0.0.0.0" is sent to the
provider, contradicting the claim. -/
theorem c4_bug_exhibit :
    (resolveIP "" ⟨"", [⟨"a.example.com", "u", "p"⟩]⟩ none =
      (fallbackIP, some MainError.probeErr)) ∧
    fallbackIP ≠ "" ∧
    updateCallsOf (runMain ⟨⟨"", [⟨"a.example.com", "u", "p"⟩]⟩, "d",
        fun _ i => "good " ++ i, fun _ => false⟩
      "" none
      (fun p => if p = ipCacheFilepath "d" "a.example.com" then some "1.2.3.4"
        else none)
      ["a.example.com"]).trace = [("a.example.com", fallbackIP)] :=
  ⟨by decide, by decide, by decide⟩

/-- When the cache entry of a found hostname already holds the resolved
ip and reading succeeds, the loop body only records an up-to-date event:
no update request, no state change. -/
theorem processHost_upToDate (env : Env) (ip : String) (st : RunState)
    (hostname : String) (conf : Config)
    (hfind : ConfigForHostname env.confs hostname = some conf)
    (hrf : env.readFails (ipCacheFilepath env.cacheDir conf.hostname) = false)
    (hfs : st.fs (ipCacheFilepath env.cacheDir conf.hostname) = some ip) :
    processHost env ip st hostname =
      ⟨st.fs, none, st.trace ++ [Event.upToDate conf.hostname]⟩ := by
  have hload : LoadCachedIP env.readFails conf env.cacheDir st.fs =
      (st.fs, ip, none) := by
    simp [LoadCachedIP, hfs, hrf]
  simp [processHost, hfind, hload]

/-- `checkResponse` never destroys a cache entry that already holds the
requested ip. -/
theorem checkResponse_fst_preserves (conf : Config) (d : String) (fs : FS)
    (response ip p : String) (h : fs p = some ip) :
    (checkResponse conf d fs response ip).1 p = some ip := by
  rcases checkResponse_fst_cases conf d fs response ip with hc | hc <;> rw [hc]
  · exact fsWrite_preserves _ _ _ _ h
  · exact h

/-- One loop iteration, for any hostname, preserves every cache entry
that already holds the resolved ip. -/
theorem processHost_preserves (env : Env) (ip : String) (st : RunState)
    (g p : String) (hp : st.fs p = some ip) :
    (processHost env ip st g).fs p = some ip := by
  cases hfind : ConfigForHostname env.confs g with
  | none => simp [processHost, hfind, hp]
  | some conf =>
    cases hpg : st.fs (ipCacheFilepath env.cacheDir conf.hostname) with
    | none =>
      have hne : ¬ p = ipCacheFilepath env.cacheDir conf.hostname := fun he => by
        rw [he, hpg] at hp; exact Option.noConfusion hp
      have hfs1 : (cacheIP conf env.cacheDir st.fs fallbackIP) p = some ip := by
        simpa [cacheIP, fsWrite, hne] using hp
      have hload : LoadCachedIP env.readFails conf env.cacheDir st.fs =
          (cacheIP conf env.cacheDir st.fs fallbackIP, fallbackIP, none) := by
        simp [LoadCachedIP, hpg]
      by_cases hip : ip = fallbackIP
      · simp [processHost, hfind, hload, hip, hfs1]
      · have hkeep := checkResponse_fst_preserves conf env.cacheDir
          (cacheIP conf env.cacheDir st.fs fallbackIP)
          (env.provider conf.hostname ip) ip p hfs1
        rcases hcr : checkResponse conf env.cacheDir
            (cacheIP conf env.cacheDir st.fs fallbackIP)
            (env.provider conf.hostname ip) ip with ⟨fs2, uerr⟩
        rw [hcr] at hkeep
        have hk : fs2 p = some ip := hkeep
        cases uerr <;> simp [processHost, hfind, hload, hip, hcr, hk]
    | some data =>
      by_cases hr : env.readFails (ipCacheFilepath env.cacheDir conf.hostname)
      · have hload : LoadCachedIP env.readFails conf env.cacheDir st.fs =
            (st.fs, "",
              some (MainError.loadErr (ipCacheFilepath env.cacheDir conf.hostname))) := by
          simp [LoadCachedIP, hpg, hr]
        simp [processHost, hfind, hload, hp]
      · have hload : LoadCachedIP env.readFails conf env.cacheDir st.fs =
            (st.fs, data, none) := by
          simp [LoadCachedIP, hpg, hr]
        by_cases hip : ip = data
        · simp [processHost, hfind, hload, hip, hp]
        · have hkeep := checkResponse_fst_preserves conf env.cacheDir st.fs
            (env.provider conf.hostname ip) ip p hp
          rcases hcr : checkResponse conf env.cacheDir st.fs
              (env.provider conf.hostname ip) ip with ⟨fs2, uerr⟩
          rw [hcr] at hkeep
          have hk : fs2 p = some ip := hkeep
          cases uerr <;> simp [processHost, hfind, hload, hip, hcr, hk]

/-- The whole loop preserves every cache entry that already holds the
resolved ip. -/
theorem runHosts_preserves (env : Env) (ip : String) (hs : List String) :
    ∀ (st : RunState) (p : String), st.fs p = some ip →
      (runHosts env ip st hs).fs p = some ip := by
  induction hs with
  | nil => intro st p hp; simpa using hp
  | cons g t ih =>
    intro st p hp
    rw [runHosts_cons]
    exact ih _ p (processHost_preserves env ip st g p hp)

/-- When a found hostname can be loaded and the provider echoes the
requested ip in a response with at least two components, one loop
iteration leaves the cache entry of that hostname holding the resolved
ip (it either was already up to date or got the confirmed ip cached). -/
theorem processHost_establishes (env : Env) (ip : String) (st : RunState)
    (g : String) (conf : Config)
    (hfind : ConfigForHostname env.confs g = some conf)
    (hrf : env.readFails (ipCacheFilepath env.cacheDir conf.hostname) = false)
    (hlen : 2 ≤ (goSplitSpace (env.provider conf.hostname ip)).length)
    (hecho : (goSplitSpace (env.provider conf.hostname ip)).getD 1 "" = ip) :
    (processHost env ip st g).fs (ipCacheFilepath env.cacheDir conf.hostname) =
      some ip := by
  cases hpg : st.fs (ipCacheFilepath env.cacheDir conf.hostname) with
  | none =>
    have hload : LoadCachedIP env.readFails conf env.cacheDir st.fs =
        (cacheIP conf env.cacheDir st.fs fallbackIP, fallbackIP, none) := by
      simp [LoadCachedIP, hpg]
    by_cases hip : ip = fallbackIP
    · simp only [processHost, hfind, hload]
      rw [if_pos hip]
      simp [cacheIP, fsWrite, hip]
    · have hcr := checkResponse_success conf env.cacheDir
        (cacheIP conf env.cacheDir st.fs fallbackIP)
        (env.provider conf.hostname ip) ip hlen hecho
      simp only [processHost, hfind, hload]
      rw [if_neg hip, hcr]
      simp [cacheIP, fsWrite]
  | some data =>
    have hload : LoadCachedIP env.readFails conf env.cacheDir st.fs =
        (st.fs, data, none) := by
      simp [LoadCachedIP, hpg, hrf]
    by_cases hip : ip = data
    · simp only [processHost, hfind, hload]
      rw [if_pos hip]
      simp [hpg, hip]
    · have hcr := checkResponse_success conf env.cacheDir st.fs
        (env.provider conf.hostname ip) ip hlen hecho
      simp only [processHost, hfind, hload]
      rw [if_neg hip, hcr]
      simp [cacheIP, fsWrite]

/-- After a full pass in which loads succeed and the provider echoes the
requested ip, the cache entry of every found hostname holds the resolved
ip. -/
theorem runHosts_establishes (env : Env) (ip : String) (hs : List String)
    (H : ∀ h ∈ hs, ∀ conf : Config, ConfigForHostname env.confs h = some conf →
      env.readFails (ipCacheFilepath env.cacheDir conf.hostname) = false ∧
      2 ≤ (goSplitSpace (env.provider conf.hostname ip)).length ∧
      (goSplitSpace (env.provider conf.hostname ip)).getD 1 "" = ip) :
    ∀ st : RunState, ∀ h ∈ hs, ∀ conf : Config,
      ConfigForHostname env.confs h = some conf →
      (runHosts env ip st hs).fs (ipCacheFilepath env.cacheDir conf.hostname) =
        some ip := by
  induction hs with
  | nil => intro st h hmem; exact absurd hmem (List.not_mem_nil h)
  | cons g t ih =>
    intro st h hmem conf hfind
    rcases List.mem_cons.1 hmem with rfl | hmem2
    · obtain ⟨hrf, hlen, hecho⟩ := H h (List.mem_cons_self _ _) conf hfind
      rw [runHosts_cons]
      exact runHosts_preserves env ip t _ _
        (processHost_establishes env ip st h conf hfind hrf hlen hecho)
    · rw [runHosts_cons]
      exact ih (fun x hx c hc => H x (List.mem_cons_of_mem _ hx) c hc) _ h hmem2
        conf hfind

/-- A pass over hostnames whose cache entries all hold the resolved ip
changes nothing and sends no update request. -/
theorem runHosts_allUpToDate (env : Env) (ip : String) (hs : List String) :
    ∀ st : RunState,
      (∀ h ∈ hs, ∀ conf : Config, ConfigForHostname env.confs h = some conf →
        env.readFails (ipCacheFilepath env.cacheDir conf.hostname) = false ∧
        st.fs (ipCacheFilepath env.cacheDir conf.hostname) = some ip) →
      (runHosts env ip st hs).fs = st.fs ∧
      updateCallsOf (runHosts env ip st hs).trace = updateCallsOf st.trace := by
  induction hs with
  | nil => intro st _; exact ⟨rfl, rfl⟩
  | cons g t ih =>
    intro st H
    rw [runHosts_cons]
    cases hfind : ConfigForHostname env.confs g with
    | none =>
      have hstep : processHost env ip st g =
          { st with trace := st.trace ++ [Event.skipped g] } := by
        simp [processHost, hfind]
      rw [hstep]
      obtain ⟨h1, h2⟩ := ih { st with trace := st.trace ++ [Event.skipped g] }
        (fun x hx c hc => H x (List.mem_cons_of_mem _ hx) c hc)
      refine ⟨h1, ?_⟩
      rw [h2, updateCallsOf_append]
      simp [updateCallsOf]
    | some conf =>
      obtain ⟨hrf, hfs⟩ := H g (List.mem_cons_self _ _) conf hfind
      have hstep := processHost_upToDate env ip st g conf hfind hrf hfs
      rw [hstep]
      obtain ⟨h1, h2⟩ := ih ⟨st.fs, none, st.trace ++ [Event.upToDate conf.hostname]⟩
        (fun x hx c hc => H x (List.mem_cons_of_mem _ hx) c hc)
      refine ⟨h1, ?_⟩
      rw [h2, updateCallsOf_append]
      simp [updateCallsOf]

/-- C8, counterexample.  One configured hostname whose cached ip differs
from the resolved ip and a provider that answers "badauth": the first
run fails and caches nothing, so the second consecutive run with the
same unchanged resolved ip sends an update request again, not zero
calls. -/
theorem c8_counterexample :
    updateCallsOf (runHosts
      ⟨⟨"", [⟨"c8", "u", "p"⟩]⟩, "d", fun _ _ => "badauth", fun _ => false⟩
      "9.9.9.9"
      ⟨(runHosts ⟨⟨"", [⟨"c8", "u", "p"⟩]⟩, "d", fun _ _ => "badauth", fun _ => false⟩
        "9.9.9.9"
        ⟨(fun p => if p = ipCacheFilepath "d" "c8" then some "1.1.1.1" else none),
          none, []⟩
        ["c8"]).fs, none, []⟩
      ["c8"]).trace = [("c8", "9.9.9.9")] := by decide

/-- C8, amended.  A found hostname whose cache entry (as loaded) equals
the resolved ip yields only an up-to-date report with no update request
and no state change; and when every requested hostname that is found in
the configuration can be loaded and the provider echoes the requested ip
(so the first run of update attempts succeeds), a second consecutive run
with the same resolved ip sends zero update requests. -/
theorem c8_theorem :
    (∀ (env : Env) (ip : String) (st : RunState) (hostname : String) (conf : Config),
      ConfigForHostname env.confs hostname = some conf →
      env.readFails (ipCacheFilepath env.cacheDir conf.hostname) = false →
      st.fs (ipCacheFilepath env.cacheDir conf.hostname) = some ip →
      processHost env ip st hostname =
        ⟨st.fs, none, st.trace ++ [Event.upToDate conf.hostname]⟩) ∧
    (∀ (env : Env) (ip : String) (fs0 : FS) (hs : List String),
      (∀ h ∈ hs, ∀ conf : Config, ConfigForHostname env.confs h = some conf →
        env.readFails (ipCacheFilepath env.cacheDir conf.hostname) = false ∧
        2 ≤ (goSplitSpace (env.provider conf.hostname ip)).length ∧
        (goSplitSpace (env.provider conf.hostname ip)).getD 1 "" = ip) →
      updateCallsOf (runHosts env ip
        ⟨(runHosts env ip ⟨fs0, none, []⟩ hs).fs, none, []⟩ hs).trace = []) := by
  constructor
  · exact processHost_upToDate
  · intro env ip fs0 hs H
    have hEst := runHosts_establishes env ip hs H ⟨fs0, none, []⟩
    have hUp := (runHosts_allUpToDate env ip hs
      ⟨(runHosts env ip ⟨fs0, none, []⟩ hs).fs, none, []⟩
      (fun h hm conf hc => ⟨(H h hm conf hc).1, hEst h hm conf hc⟩)).2
    simpa [updateCallsOf] using hUp

/-- C8, witness: one configured hostname.  First conjunct: its cache
entry already holds the resolved ip, so the loop body only reports
up-to-date.  Second conjunct: starting from an empty cache with a
provider answering "good" plus the echoed ip, the second consecutive run
sends zero update requests. -/
theorem c8_witness :
    (processHost ⟨⟨"", [⟨"w8", "u", "p"⟩]⟩, "d", fun _ i => "good " ++ i,
        fun _ => false⟩ "9.9.9.9"
      ⟨(fun p => if p = ipCacheFilepath "d" "w8" then some "9.9.9.9" else none),
        none, []⟩ "w8" =
      ⟨(fun p => if p = ipCacheFilepath "d" "w8" then some "9.9.9.9" else none),
        none, [Event.upToDate "w8"]⟩) ∧
    updateCallsOf (runHosts
      ⟨⟨"", [⟨"w8", "u", "p"⟩]⟩, "d", fun _ i => "good " ++ i, fun _ => false⟩
      "9.9.9.9"
      ⟨(runHosts ⟨⟨"", [⟨"w8", "u", "p"⟩]⟩, "d", fun _ i => "good " ++ i,
          fun _ => false⟩ "9.9.9.9" ⟨(fun _ => none), none, []⟩ ["w8"]).fs,
        none, []⟩
      ["w8"]).trace = [] := by
  constructor
  · exact c8_theorem.1 _ "9.9.9.9" _ "w8" ⟨"w8", "u", "p"⟩ rfl rfl (by decide)
  · refine c8_theorem.2 _ "9.9.9.9" (fun _ => none) ["w8"] ?_
    intro h hm conf hc
    simp only [List.mem_singleton] at hm
    subst hm
    have hconf : some (⟨"w8", "u", "p"⟩ : Config) = some conf := hc
    cases Option.some.inj hconf
    exact ⟨rfl, by decide, by decide⟩
